import Mathlib

/-!
Verification of the click-hint engine (an Obsidian plugin): label generation,
hint-session keystroke handling, activation dispatch, and settings loading,
shallowly embedded from the TypeScript sources.
-/

set_option maxHeartbeats 1600000

/-- Strings of the TypeScript source are modelled as lists of characters. -/
abbrev Str := List Char

/-- JS `s.toLowerCase()`, character by character. -/
def lowerStr (s : Str) : Str := s.map Char.toLower

/-- `generateCombinations` closure inside the generalized `generateUniquePrefixes`
(src/unnamed/part_000, third snapshot, lines 382-394): depth-first expansion of
`pre` by `depth` further letters, pushing each completed string onto the shared
result accumulator, stopping as soon as `n` strings have been collected. The
mid-loop early `return` of the JS is behaviourally the entry guard re-checked. -/
def generateCombinations (letters : Str) (n : Nat) : Nat → Str → List Str → List Str
  | 0, pre, acc => if n ≤ acc.length then acc else acc ++ [pre]
  | depth + 1, pre, acc =>
      if n ≤ acc.length then acc
      else letters.foldl (fun a c => generateCombinations letters n depth (pre ++ [c]) a) acc

/-- The `while (result.length < n)` loop of the generalized
`generateUniquePrefixes` (src/unnamed/part_000, third snapshot, lines 377-398),
with an explicit fuel bound; each iteration explores all strings of the current
length.  Fuel `n` is sufficient whenever the alphabet is non-empty, because each
iteration then pushes at least one string; for an empty alphabet the JS loop
never terminates, which the fuel model renders as a result forever shorter
than `n`. -/
def generateUniquePrefixesLoop (letters : Str) (n : Nat) : Nat → Nat → List Str → List Str
  | 0, _, acc => acc
  | fuel + 1, len, acc =>
      if n ≤ acc.length then acc
      else generateUniquePrefixesLoop letters n fuel (len + 1)
        (generateCombinations letters n len [] acc)

/-- `generateUniquePrefixes` (src/unnamed/part_000, third snapshot, lines
370-401): the generalized, uncapped label generator the spec adopts as the
reference behaviour.  Throws for `n <= 0`, otherwise runs the
breadth-over-length generation loop starting at length 1 with an empty result. -/
def generateUniquePrefixes (letters : Str) (n : Int) : Except String (List Str) :=
  if n ≤ 0 then Except.error "n must be a positive integer."
  else Except.ok (generateUniquePrefixesLoop letters n.toNat n.toNat 1 [])

/-- Specification-side helper: all strings `pre ++ w` with `w` of length `d`
over `letters`, in the depth-first order walked by `generateCombinations`. -/
def allCombos (letters : Str) : Nat → Str → List Str
  | 0, pre => [pre]
  | d + 1, pre => letters.flatMap (fun c => allCombos letters d (pre ++ [c]))

/-- A clickable element, keeping exactly the observations `dispatchElementAction`
makes of it: its tag name, whether its parent's class list names
`internal-link`, and its visible text. -/
structure Elem where
  tag : String
  parentHasInternalLink : Bool
  innerText : String
deriving DecidableEq, Inhabited

/-- A hint marker in the document: the emphasised matched span (the
`click-hint-matched` child, empty until a first restyle) and the remaining
unmatched text.  Its full visible text (`textContent`) is `matched ++ rest`. -/
structure Marker where
  matched : Str
  rest : Str
deriving DecidableEq

/-- The plugin-plus-DOM state a hint session observes and mutates:
`hintChars` is `settings.hintChars`; `hintMode` and `hintElements` are the
plugin fields of those names; `markers` is the list of `.click-hint-marker`
elements in document order; `currentInput` is the closure-local accumulator of
the keydown handler; `listenerAttached` records whether the capture-phase
keydown listener is registered. -/
structure PluginState where
  hintChars : Str
  hintMode : Bool
  hintElements : List (Str × Elem)
  markers : List Marker
  currentInput : Str
  listenerAttached : Bool
deriving DecidableEq

/-- `removeHints` (src/unnamed/part_000, third snapshot, lines 364-368):
leave hint mode, delete every marker element, clear the label assignment.
It touches neither `currentInput` nor the listener registration. -/
def removeHints (s : PluginState) : PluginState :=
  { s with hintMode := false, markers := [], hintElements := [] }

/-- The outcome of delivering one keydown event: the new state, the element
handed to `dispatchElementAction` (if any), and — when a dispatch happened —
a snapshot of the state at the moment `dispatchElementAction` was entered. -/
structure StepResult where
  state : PluginState
  activation : Option Elem
  stateAtDispatch : Option PluginState
deriving DecidableEq

/-- `keydownHandler` (src/unnamed/part_000, third snapshot, lines 297-342):
ignore events outside hint mode; Escape tears the session down; otherwise the
lowercased key name is appended whole to `currentInput` (written below as
`s.currentInput ++ lowerStr key`, the value of the closure variable after
`currentInput += key`), the live labels are filtered by the new input, and the
step ends in no-match teardown, full-match teardown-then-dispatch, or a
partial-match restyle that deletes the markers of eliminated labels.
`dispatchThrows` models `dispatchElementAction` raising: the
`removeEventListener` call after it is then skipped. -/
def keydownHandler (dispatchThrows : Bool) (s : PluginState) (key : Str) : StepResult :=
  if s.hintMode = false then ⟨s, none, none⟩
  else if lowerStr key = "escape".toList then
    ⟨{ removeHints s with listenerAttached := false }, none, none⟩
  else if (s.hintElements.filter (fun p =>
      List.isPrefixOf (s.currentInput ++ lowerStr key) p.1)).isEmpty then
    ⟨{ removeHints { s with currentInput := s.currentInput ++ lowerStr key } with
        listenerAttached := false }, none, none⟩
  else
    match (s.hintElements.filter (fun p =>
        List.isPrefixOf (s.currentInput ++ lowerStr key) p.1)).find?
        (fun p => p.1 == s.currentInput ++ lowerStr key) with
    | some p =>
      if dispatchThrows then
        ⟨removeHints { s with currentInput := s.currentInput ++ lowerStr key }, some p.2,
          some (removeHints { s with currentInput := s.currentInput ++ lowerStr key })⟩
      else
        ⟨{ removeHints { s with currentInput := s.currentInput ++ lowerStr key } with
            listenerAttached := false }, some p.2,
          some (removeHints { s with currentInput := s.currentInput ++ lowerStr key })⟩
    | none =>
      ⟨{ s with
          currentInput := s.currentInput ++ lowerStr key,
          markers := s.markers.filterMap (fun m =>
            if List.isPrefixOf (s.currentInput ++ lowerStr key) (m.matched ++ m.rest) then
              some ⟨s.currentInput ++ lowerStr key,
                (m.matched ++ m.rest).drop (s.currentInput ++ lowerStr key).length⟩
            else none) },
        none, none⟩

/-- `keydownHandler` of src/main.ts, lines 92-132: identical to the
src/unnamed/part_000 handler except in the ambiguous-match branch, where every
marker whose text starts with the input is restyled via `innerHTML` but markers
of eliminated labels are left in the document unchanged (that variant has no
`else { marker.remove() }`). -/
def keydownHandlerMain (dispatchThrows : Bool) (s : PluginState) (key : Str) : StepResult :=
  if s.hintMode = false then ⟨s, none, none⟩
  else if lowerStr key = "escape".toList then
    ⟨{ removeHints s with listenerAttached := false }, none, none⟩
  else if (s.hintElements.filter (fun p =>
      List.isPrefixOf (s.currentInput ++ lowerStr key) p.1)).isEmpty then
    ⟨{ removeHints { s with currentInput := s.currentInput ++ lowerStr key } with
        listenerAttached := false }, none, none⟩
  else
    match (s.hintElements.filter (fun p =>
        List.isPrefixOf (s.currentInput ++ lowerStr key) p.1)).find?
        (fun p => p.1 == s.currentInput ++ lowerStr key) with
    | some p =>
      if dispatchThrows then
        ⟨removeHints { s with currentInput := s.currentInput ++ lowerStr key }, some p.2,
          some (removeHints { s with currentInput := s.currentInput ++ lowerStr key })⟩
      else
        ⟨{ removeHints { s with currentInput := s.currentInput ++ lowerStr key } with
            listenerAttached := false }, some p.2,
          some (removeHints { s with currentInput := s.currentInput ++ lowerStr key })⟩
    | none =>
      ⟨{ s with
          currentInput := s.currentInput ++ lowerStr key,
          markers := s.markers.map (fun m =>
            if List.isPrefixOf (s.currentInput ++ lowerStr key) (m.matched ++ m.rest) then
              (⟨s.currentInput ++ lowerStr key,
                (m.matched ++ m.rest).drop (s.currentInput ++ lowerStr key).length⟩ : Marker)
            else m) },
        none, none⟩

/-- Deliver a list of keydown events in order, threading the state and
collecting every element handed to the activation dispatch. -/
def runKeys (dispatchThrows : Bool) : PluginState → List Str → PluginState × List Elem
  | s, [] => (s, [])
  | s, k :: ks =>
    let r := keydownHandler dispatchThrows s k
    let rest := runKeys dispatchThrows r.state ks
    (rest.1, r.activation.toList ++ rest.2)

/-- The externally visible actions `dispatchElementAction` can take. -/
inductive DispatchAction where
  | openLinkText (linktext : String) (sourcePath : String) (newLeaf : Bool) (active : Bool)
  | windowOpen (url : String) (target : String)
  | click
deriving DecidableEq

/-- `dispatchElementAction` (src/unnamed/part_000, third snapshot, lines
347-362; textually identical in src/main.ts lines 138-153): an `A` element
whose parent class names `internal-link` is opened through the workspace by its
decoded inner text relative to the active file (and nothing happens without an
active file); any other `A` element is opened with `window.open` on its inner
text **and then falls through** to the generic `element.click()`; every other
element just gets `element.click()`.  `decodeURI` and the active file are
host-supplied. -/
def dispatchElementAction (decodeURI : String → String) (activeFile : Option String)
    (e : Elem) : List DispatchAction :=
  if e.tag = "A" ∧ e.parentHasInternalLink = true then
    match activeFile with
    | some path => [DispatchAction.openLinkText (decodeURI e.innerText) path false true]
    | none => []
  else if e.tag = "A" then
    [DispatchAction.windowOpen e.innerText "_blank", DispatchAction.click]
  else
    [DispatchAction.click]

/-- The persisted settings the matching engine consumes. -/
structure ClickHintSettings where
  hintChars : Str
deriving DecidableEq

/-- `DEFAULT_SETTINGS` (src/unnamed/part_000, lines 7-9). -/
def DEFAULT_SETTINGS : ClickHintSettings := ⟨"abcdefghijklmnopqrstuvwxyz".toList⟩

/-- A persisted data blob as `loadData` returns it: possibly absent entirely,
and when present possibly lacking the `hintChars` property. -/
structure LoadedData where
  hintChars : Option Str
deriving DecidableEq

/-- `loadSettings` (src/unnamed/part_000, lines 30-32):
`Object.assign({}, DEFAULT_SETTINGS, await this.loadData())` — a property
present on the loaded blob overrides the default even when its value is the
empty string; only an absent blob or an absent property falls back. -/
def loadSettings (data : Option LoadedData) : ClickHintSettings :=
  match data with
  | none => DEFAULT_SETTINGS
  | some d =>
    match d.hintChars with
    | none => DEFAULT_SETTINGS
    | some s => ⟨s⟩

/-- JS object-property assignment `record[key] = value` on a `Record` kept in
insertion order, as `this.hintElements[hint] = element` performs it. -/
def recordInsert (m : List (Str × Elem)) (k : Str) (v : Elem) : List (Str × Elem) :=
  if m.any (fun p => p.1 == k) then m.map (fun p => if p.1 == k then (k, v) else p)
  else m ++ [(k, v)]

/-- `showHints` (src/unnamed/part_000, third snapshot, lines 258-345), with the
candidate enumeration and visibility filtering supplied as the already-filtered
`candidates` list and the `.app-container` query result as `containerPresent`.
Note the order of effects: `hintMode` is set **before** `generateUniquePrefixes`
is called, so a generator error leaves `hintMode = true`; the missing-container
early return likewise leaves it set.  On success one marker per candidate is
created, the label assignment is populated, `currentInput` starts empty and the
keydown listener is attached. -/
def showHints (containerPresent : Bool) (s : PluginState) (candidates : List Elem) :
    PluginState × Except String Unit :=
  if s.hintMode then (s, Except.ok ())
  else
    let s1 := { s with hintMode := true }
    match generateUniquePrefixes s1.hintChars (candidates.length : Int) with
    | Except.error msg => (s1, Except.error msg)
    | Except.ok hints =>
      if containerPresent = false then (s1, Except.ok ())
      else
        let pairs := hints.zip candidates
        ({ s1 with
            markers := s1.markers ++ pairs.map (fun p => (⟨[], p.1⟩ : Marker)),
            hintElements := pairs.foldl (fun m p => recordInsert m p.1 p.2) s1.hintElements,
            currentInput := [],
            listenerAttached := true },
          Except.ok ())

/-! ## Properties of the label generator -/

theorem allCombos_length (letters : Str) :
    ∀ (d : Nat) (pre : Str), (allCombos letters d pre).length = letters.length ^ d := by
  intro d
  induction d with
  | zero => intro pre; simp [allCombos]
  | succ d ih =>
    intro pre
    simp only [allCombos, List.length_flatMap]
    have h1 : (List.map (List.length ∘ fun c => allCombos letters d (pre ++ [c])) letters)
        = List.map (fun _ => letters.length ^ d) letters := by
      apply List.map_congr_left
      intro c _
      simp [ih]
    rw [h1]
    simp [List.map_const', List.sum_replicate, smul_eq_mul, pow_succ, Nat.mul_comm]

theorem mem_allCombos (letters : Str) :
    ∀ (d : Nat) (pre s : Str), s ∈ allCombos letters d pre →
      ∃ w, s = pre ++ w ∧ w.length = d ∧ ∀ c ∈ w, c ∈ letters := by
  intro d
  induction d with
  | zero =>
    intro pre s hs
    simp only [allCombos, List.mem_singleton] at hs
    exact ⟨[], by simp [hs]⟩
  | succ d ih =>
    intro pre s hs
    simp only [allCombos, List.mem_flatMap] at hs
    obtain ⟨c, hc, hs⟩ := hs
    obtain ⟨w, rfl, hw, hws⟩ := ih (pre ++ [c]) s hs
    refine ⟨c :: w, by simp, by simp [hw], ?_⟩
    intro x hx
    rcases List.mem_cons.mp hx with hx | hx
    · exact hx ▸ hc
    · exact hws x hx

theorem allCombos_nodup (letters : Str) (hnd : letters.Nodup) :
    ∀ (d : Nat) (pre : Str), (allCombos letters d pre).Nodup := by
  intro d
  induction d with
  | zero => intro pre; simp [allCombos]
  | succ d ih =>
    intro pre
    rw [allCombos, List.nodup_flatMap]
    refine ⟨fun c _ => ih (pre ++ [c]), ?_⟩
    refine hnd.imp ?_
    intro a b hab s hsa hsb
    obtain ⟨w, hw, -, -⟩ := mem_allCombos letters d (pre ++ [a]) s hsa
    obtain ⟨w', hw', -, -⟩ := mem_allCombos letters d (pre ++ [b]) s hsb
    apply hab
    have h2 : pre ++ ([a] ++ w) = pre ++ ([b] ++ w') := by
      simpa [List.append_assoc] using hw.symm.trans hw'
    have h3 := List.append_cancel_left h2
    simpa using congrArg (fun l => l.head?) h3

theorem generateCombinations_foldl_eq (letters : Str) (n d : Nat)
    (ih : ∀ (pre : Str) (acc : List Str),
      generateCombinations letters n d pre acc
        = acc ++ (allCombos letters d pre).take (n - acc.length)) :
    ∀ (ls : List Char) (pre : Str) (acc : List Str),
      ls.foldl (fun a c => generateCombinations letters n d (pre ++ [c]) a) acc
        = acc ++ (ls.flatMap (fun c => allCombos letters d (pre ++ [c]))).take (n - acc.length) := by
  intro ls
  induction ls with
  | nil => intro pre acc; simp
  | cons c ls ihls =>
    intro pre acc
    simp only [List.foldl_cons, List.flatMap_cons]
    rw [ih (pre ++ [c]) acc, ihls, List.take_append_eq_append_take, ← List.append_assoc]
    congr 2
    simp only [List.length_append, List.length_take]
    omega

theorem generateCombinations_eq (letters : Str) (n : Nat) :
    ∀ (d : Nat) (pre : Str) (acc : List Str),
      generateCombinations letters n d pre acc
        = acc ++ (allCombos letters d pre).take (n - acc.length) := by
  intro d
  induction d with
  | zero =>
    intro pre acc
    by_cases h : n ≤ acc.length
    · simp [generateCombinations, allCombos, h, Nat.sub_eq_zero_of_le h]
    · have hpos : 0 < n - acc.length := Nat.sub_pos_of_lt (Nat.lt_of_not_le h)
      obtain ⟨m, hm⟩ := Nat.exists_eq_succ_of_ne_zero (Nat.pos_iff_ne_zero.mp hpos)
      simp [generateCombinations, allCombos, h, hm]
  | succ d ih =>
    intro pre acc
    by_cases h : n ≤ acc.length
    · simp [generateCombinations, h, Nat.sub_eq_zero_of_le h]
    · simp only [generateCombinations, if_neg h]
      rw [generateCombinations_foldl_eq letters n d ih letters pre acc]
      rfl

theorem generateUniquePrefixesLoop_spec (letters : Str) (n : Nat)
    (hne : letters ≠ []) (hnd : letters.Nodup) :
    ∀ (fuel len : Nat) (acc : List Str),
      1 ≤ len →
      acc.Nodup →
      (∀ s ∈ acc, 1 ≤ s.length ∧ s.length < len ∧ ∀ c ∈ s, c ∈ letters) →
      acc.length ≤ n →
      n ≤ acc.length + fuel →
      (generateUniquePrefixesLoop letters n fuel len acc).length = n
      ∧ (generateUniquePrefixesLoop letters n fuel len acc).Nodup
      ∧ ∀ s ∈ generateUniquePrefixesLoop letters n fuel len acc,
          1 ≤ s.length ∧ ∀ c ∈ s, c ∈ letters := by
  intro fuel
  induction fuel with
  | zero =>
    intro len acc _ hndacc hacc hle hge
    have hacclen : acc.length = n := le_antisymm hle (by simpa using hge)
    simp only [generateUniquePrefixesLoop]
    exact ⟨hacclen, hndacc, fun s hs => ⟨(hacc s hs).1, (hacc s hs).2.2⟩⟩
  | succ fuel ih =>
    intro len acc hlen hndacc hacc hle hge
    by_cases h : n ≤ acc.length
    · have hacclen : acc.length = n := le_antisymm hle h
      simp only [generateUniquePrefixesLoop, if_pos h]
      exact ⟨hacclen, hndacc, fun s hs => ⟨(hacc s hs).1, (hacc s hs).2.2⟩⟩
    · simp only [generateUniquePrefixesLoop, if_neg h]
      rw [generateCombinations_eq]
      set T := (allCombos letters len []).take (n - acc.length) with hT
      have hmemT : ∀ s ∈ T, s.length = len ∧ ∀ c ∈ s, c ∈ letters := by
        intro s hs
        obtain ⟨w, hw, hwl, hwc⟩ :=
          mem_allCombos letters len [] s (List.take_subset _ _ hs)
        constructor
        · simpa [hw] using hwl
        · intro c hc
          exact hwc c (by simpa [hw] using hc)
      have hlpos : 0 < letters.length := List.length_pos.mpr hne
      have hTlen : T.length = min (n - acc.length) (letters.length ^ len) := by
        simp [hT, List.length_take, allCombos_length]
      have hTpos : 1 ≤ T.length := by
        have hp : 0 < letters.length ^ len := Nat.pos_pow_of_pos len hlpos
        omega
      have hndT : T.Nodup := (allCombos_nodup letters hnd len []).sublist (List.take_sublist _ _)
      have hdisj : acc.Disjoint T := by
        intro s hsacc hsT
        have h1 := (hacc s hsacc).2.1
        have h2 := (hmemT s hsT).1
        omega
      have happ : (acc ++ T).Nodup := hndacc.append hndT hdisj
      have haccT : ∀ s ∈ acc ++ T, 1 ≤ s.length ∧ s.length < len + 1 ∧ ∀ c ∈ s, c ∈ letters := by
        intro s hs
        rcases List.mem_append.mp hs with hs | hs
        · exact ⟨(hacc s hs).1, Nat.lt_succ_of_lt (hacc s hs).2.1, (hacc s hs).2.2⟩
        · refine ⟨?_, ?_, (hmemT s hs).2⟩
          · have := (hmemT s hs).1; omega
          · have := (hmemT s hs).1; omega
      have hle' : (acc ++ T).length ≤ n := by
        simp only [List.length_append]
        omega
      have hge' : n ≤ (acc ++ T).length + fuel := by
        simp only [List.length_append]
        omega
      exact ih (len + 1) (acc ++ T) (by omega) happ haccT hle' hge'

theorem generateUniquePrefixes_ok_spec (letters : Str) (n : Int)
    (hne : letters ≠ []) (hnd : letters.Nodup) (hn : 1 ≤ n) :
    ∃ labels, generateUniquePrefixes letters n = Except.ok labels
      ∧ labels.length = n.toNat
      ∧ labels.Nodup
      ∧ ∀ lab ∈ labels, lab ≠ [] ∧ ∀ c ∈ lab, c ∈ letters := by
  have hn0 : ¬ n ≤ 0 := by omega
  refine ⟨generateUniquePrefixesLoop letters n.toNat n.toNat 1 [], ?_, ?_⟩
  · simp [generateUniquePrefixes, hn0]
  · obtain ⟨h1, h2, h3⟩ :=
      generateUniquePrefixesLoop_spec letters n.toNat hne hnd n.toNat 1 []
        (by omega) (by simp) (by simp) (by simp) (by simp)
    refine ⟨h1, h2, ?_⟩
    intro lab hlab
    refine ⟨?_, (h3 lab hlab).2⟩
    have := (h3 lab hlab).1
    intro hnil
    simp [hnil] at this

/-! ## Properties of the keydown handler and session lifecycle -/

theorem keydownHandler_not_hintMode (dt : Bool) (s : PluginState) (key : Str)
    (h : s.hintMode = false) : keydownHandler dt s key = ⟨s, none, none⟩ := by
  simp [keydownHandler, h]

theorem keydownHandler_escape (dt : Bool) (s : PluginState) (key : Str)
    (h1 : s.hintMode = true) (h2 : lowerStr key = "escape".toList) :
    keydownHandler dt s key
      = ⟨⟨s.hintChars, false, [], [], s.currentInput, false⟩, none, none⟩ := by
  unfold keydownHandler
  rw [if_neg (by simp [h1]), if_pos h2]
  rfl

theorem keydownHandler_noMatch (dt : Bool) (s : PluginState) (key : Str)
    (h1 : s.hintMode = true) (h2 : lowerStr key ≠ "escape".toList)
    (h3 : (s.hintElements.filter (fun p =>
        List.isPrefixOf (s.currentInput ++ lowerStr key) p.1)).isEmpty = true) :
    keydownHandler dt s key
      = ⟨⟨s.hintChars, false, [], [], s.currentInput ++ lowerStr key, false⟩, none, none⟩ := by
  unfold keydownHandler
  rw [if_neg (by simp [h1]), if_neg h2, if_pos h3]
  rfl

theorem keydownHandler_fullMatch (dt : Bool) (s : PluginState) (key : Str) (p : Str × Elem)
    (h1 : s.hintMode = true) (h2 : lowerStr key ≠ "escape".toList)
    (h3 : (s.hintElements.filter (fun p =>
        List.isPrefixOf (s.currentInput ++ lowerStr key) p.1)).isEmpty = false)
    (h4 : (s.hintElements.filter (fun p =>
        List.isPrefixOf (s.currentInput ++ lowerStr key) p.1)).find?
        (fun p => p.1 == s.currentInput ++ lowerStr key) = some p) :
    keydownHandler dt s key
      = if dt = true then
          ⟨⟨s.hintChars, false, [], [], s.currentInput ++ lowerStr key, s.listenerAttached⟩,
            some p.2,
            some ⟨s.hintChars, false, [], [], s.currentInput ++ lowerStr key, s.listenerAttached⟩⟩
        else
          ⟨⟨s.hintChars, false, [], [], s.currentInput ++ lowerStr key, false⟩,
            some p.2,
            some ⟨s.hintChars, false, [], [], s.currentInput ++ lowerStr key, s.listenerAttached⟩⟩ := by
  unfold keydownHandler
  rw [if_neg (by simp [h1]), if_neg h2, if_neg (by simp [h3]), h4]
  cases dt <;> rfl

theorem keydownHandler_ambiguous (dt : Bool) (s : PluginState) (key : Str)
    (h1 : s.hintMode = true) (h2 : lowerStr key ≠ "escape".toList)
    (h3 : (s.hintElements.filter (fun p =>
        List.isPrefixOf (s.currentInput ++ lowerStr key) p.1)).isEmpty = false)
    (h4 : (s.hintElements.filter (fun p =>
        List.isPrefixOf (s.currentInput ++ lowerStr key) p.1)).find?
        (fun p => p.1 == s.currentInput ++ lowerStr key) = none) :
    keydownHandler dt s key
      = ⟨⟨s.hintChars, true, s.hintElements,
          s.markers.filterMap (fun m =>
            if List.isPrefixOf (s.currentInput ++ lowerStr key) (m.matched ++ m.rest) then
              some ⟨s.currentInput ++ lowerStr key,
                (m.matched ++ m.rest).drop (s.currentInput ++ lowerStr key).length⟩
            else none),
          s.currentInput ++ lowerStr key, s.listenerAttached⟩, none, none⟩ := by
  unfold keydownHandler
  rw [if_neg (by simp [h1]), if_neg h2, if_neg (by simp [h3]), h4, h1]

theorem keydownHandlerMain_ambiguous (dt : Bool) (s : PluginState) (key : Str)
    (h1 : s.hintMode = true) (h2 : lowerStr key ≠ "escape".toList)
    (h3 : (s.hintElements.filter (fun p =>
        List.isPrefixOf (s.currentInput ++ lowerStr key) p.1)).isEmpty = false)
    (h4 : (s.hintElements.filter (fun p =>
        List.isPrefixOf (s.currentInput ++ lowerStr key) p.1)).find?
        (fun p => p.1 == s.currentInput ++ lowerStr key) = none) :
    keydownHandlerMain dt s key
      = ⟨⟨s.hintChars, true, s.hintElements,
          s.markers.map (fun m =>
            if List.isPrefixOf (s.currentInput ++ lowerStr key) (m.matched ++ m.rest) then
              (⟨s.currentInput ++ lowerStr key,
                (m.matched ++ m.rest).drop (s.currentInput ++ lowerStr key).length⟩ : Marker)
            else m),
          s.currentInput ++ lowerStr key, s.listenerAttached⟩, none, none⟩ := by
  unfold keydownHandlerMain
  rw [if_neg (by simp [h1]), if_neg h2, if_neg (by simp [h3]), h4, h1]

theorem keydownHandler_stateAtDispatch_eq (dt : Bool) (s : PluginState) (key : Str)
    (sd : PluginState) (h : (keydownHandler dt s key).stateAtDispatch = some sd) :
    sd = ⟨s.hintChars, false, [], [], s.currentInput ++ lowerStr key, s.listenerAttached⟩ := by
  by_cases h1 : s.hintMode = false
  · rw [keydownHandler_not_hintMode dt s key h1] at h
    exact Option.noConfusion h
  · have h1' : s.hintMode = true := by simpa using h1
    by_cases h2 : lowerStr key = "escape".toList
    · rw [keydownHandler_escape dt s key h1' h2] at h
      exact Option.noConfusion h
    · by_cases h3 : (s.hintElements.filter (fun p =>
          List.isPrefixOf (s.currentInput ++ lowerStr key) p.1)).isEmpty = true
      · rw [keydownHandler_noMatch dt s key h1' h2 h3] at h
        exact Option.noConfusion h
      · have h3' : (s.hintElements.filter (fun p =>
            List.isPrefixOf (s.currentInput ++ lowerStr key) p.1)).isEmpty = false := by
          simpa using h3
        cases h4 : (s.hintElements.filter (fun p =>
            List.isPrefixOf (s.currentInput ++ lowerStr key) p.1)).find?
            (fun p => p.1 == s.currentInput ++ lowerStr key) with
        | some p =>
          rw [keydownHandler_fullMatch dt s key p h1' h2 h3' h4] at h
          cases dt <;> exact (Option.some.inj h).symm
        | none =>
          rw [keydownHandler_ambiguous dt s key h1' h2 h3' h4] at h
          exact Option.noConfusion h

theorem keydownHandler_activation_isSome_eq (dt : Bool) (s : PluginState) (key : Str) :
    (keydownHandler dt s key).activation.isSome
      = (keydownHandler dt s key).stateAtDispatch.isSome := by
  by_cases h1 : s.hintMode = false
  · rw [keydownHandler_not_hintMode dt s key h1]
    rfl
  · have h1' : s.hintMode = true := by simpa using h1
    by_cases h2 : lowerStr key = "escape".toList
    · rw [keydownHandler_escape dt s key h1' h2]
      rfl
    · by_cases h3 : (s.hintElements.filter (fun p =>
          List.isPrefixOf (s.currentInput ++ lowerStr key) p.1)).isEmpty = true
      · rw [keydownHandler_noMatch dt s key h1' h2 h3]
        rfl
      · have h3' : (s.hintElements.filter (fun p =>
            List.isPrefixOf (s.currentInput ++ lowerStr key) p.1)).isEmpty = false := by
          simpa using h3
        cases h4 : (s.hintElements.filter (fun p =>
            List.isPrefixOf (s.currentInput ++ lowerStr key) p.1)).find?
            (fun p => p.1 == s.currentInput ++ lowerStr key) with
        | some p =>
          rw [keydownHandler_fullMatch dt s key p h1' h2 h3' h4]
          cases dt <;> rfl
        | none =>
          rw [keydownHandler_ambiguous dt s key h1' h2 h3' h4]
          rfl

theorem keydownHandler_escape_activation (dt : Bool) (s : PluginState) (key : Str)
    (h : lowerStr key = "escape".toList) :
    (keydownHandler dt s key).activation = none := by
  by_cases h1 : s.hintMode = false
  · rw [keydownHandler_not_hintMode dt s key h1]
  · have h1' : s.hintMode = true := by simpa using h1
    rw [keydownHandler_escape dt s key h1' h]

theorem keydownHandler_no_exact_match_activation (dt : Bool) (s : PluginState) (key : Str)
    (h : ∀ p ∈ s.hintElements, p.1 ≠ s.currentInput ++ lowerStr key) :
    (keydownHandler dt s key).activation = none := by
  by_cases h1 : s.hintMode = false
  · rw [keydownHandler_not_hintMode dt s key h1]
  · have h1' : s.hintMode = true := by simpa using h1
    by_cases h2 : lowerStr key = "escape".toList
    · rw [keydownHandler_escape dt s key h1' h2]
    · by_cases h3 : (s.hintElements.filter (fun p =>
          List.isPrefixOf (s.currentInput ++ lowerStr key) p.1)).isEmpty = true
      · rw [keydownHandler_noMatch dt s key h1' h2 h3]
      · have h3' : (s.hintElements.filter (fun p =>
            List.isPrefixOf (s.currentInput ++ lowerStr key) p.1)).isEmpty = false := by
          simpa using h3
        cases h4 : (s.hintElements.filter (fun p =>
            List.isPrefixOf (s.currentInput ++ lowerStr key) p.1)).find?
            (fun p => p.1 == s.currentInput ++ lowerStr key) with
        | some p =>
          exfalso
          have hp : p ∈ s.hintElements.filter (fun p =>
              List.isPrefixOf (s.currentInput ++ lowerStr key) p.1) :=
            List.mem_of_find?_eq_some h4
          have hbeq := List.find?_some h4
          have hpkey : p.1 = s.currentInput ++ lowerStr key := by
            simp only [beq_iff_eq] at hbeq
            exact hbeq
          exact h p (List.mem_filter.mp hp).1 hpkey
        | none =>
          rw [keydownHandler_ambiguous dt s key h1' h2 h3' h4]

theorem keydownHandler_activation_state (dt : Bool) (s : PluginState) (key : Str)
    (h : (keydownHandler dt s key).activation.isSome = true) :
    (keydownHandler dt s key).state.hintMode = false
    ∧ (keydownHandler dt s key).state.markers = []
    ∧ (keydownHandler dt s key).state.hintElements = []
    ∧ (dt = true → (keydownHandler dt s key).state.listenerAttached = s.listenerAttached) := by
  by_cases h1 : s.hintMode = false
  · rw [keydownHandler_not_hintMode dt s key h1] at h
    exact Bool.noConfusion h
  · have h1' : s.hintMode = true := by simpa using h1
    by_cases h2 : lowerStr key = "escape".toList
    · rw [keydownHandler_escape dt s key h1' h2] at h
      exact Bool.noConfusion h
    · by_cases h3 : (s.hintElements.filter (fun p =>
          List.isPrefixOf (s.currentInput ++ lowerStr key) p.1)).isEmpty = true
      · rw [keydownHandler_noMatch dt s key h1' h2 h3] at h
        exact Bool.noConfusion h
      · have h3' : (s.hintElements.filter (fun p =>
            List.isPrefixOf (s.currentInput ++ lowerStr key) p.1)).isEmpty = false := by
          simpa using h3
        cases h4 : (s.hintElements.filter (fun p =>
            List.isPrefixOf (s.currentInput ++ lowerStr key) p.1)).find?
            (fun p => p.1 == s.currentInput ++ lowerStr key) with
        | some p =>
          rw [keydownHandler_fullMatch dt s key p h1' h2 h3' h4]
          cases hdt : dt
          · exact ⟨rfl, rfl, rfl, fun hc => Bool.noConfusion hc⟩
          · exact ⟨rfl, rfl, rfl, fun _ => rfl⟩
        | none =>
          rw [keydownHandler_ambiguous dt s key h1' h2 h3' h4] at h
          exact Bool.noConfusion h

theorem runKeys_not_hintMode (dt : Bool) (s : PluginState) (ks : List Str)
    (h : s.hintMode = false) : runKeys dt s ks = (s, []) := by
  induction ks with
  | nil => rfl
  | cons k ks ih =>
    simp [runKeys, keydownHandler_not_hintMode dt s k h, ih]

theorem runKeys_activations_le_one (dt : Bool) :
    ∀ (ks : List Str) (s : PluginState), ((runKeys dt s ks).2).length ≤ 1 := by
  intro ks
  induction ks with
  | nil => intro s; simp [runKeys]
  | cons k ks ih =>
    intro s
    rcases hro : (keydownHandler dt s k).activation with _ | e
    · simp only [runKeys, hro, Option.toList_none, List.nil_append]
      exact ih _
    · have hmode : (keydownHandler dt s k).state.hintMode = false :=
        (keydownHandler_activation_state dt s k (by simp [hro])).1
      simp [runKeys, hro, runKeys_not_hintMode dt _ ks hmode]

theorem filterMap_ite_eq_filter_map {α β : Type} (p : α → Bool) (f : α → β) :
    ∀ l : List α,
      (l.filterMap fun a => if p a then some (f a) else none) = (l.filter p).map f := by
  intro l
  induction l with
  | nil => rfl
  | cons a l ih =>
    by_cases h : p a
    · simp [List.filterMap_cons, List.filter_cons, h, ih]
    · simp [List.filterMap_cons, List.filter_cons, h, ih]

theorem isPrefixOf_self_append (l t : Str) : List.isPrefixOf l (l ++ t) = true := by
  induction l with
  | nil => simp [List.isPrefixOf]
  | cons c l ih => simp [List.isPrefixOf, ih]

theorem generateCombinations_nil (n : Nat) (d : Nat) (pre : Str) (acc : List Str)
    (hd : 1 ≤ d) : generateCombinations [] n d pre acc = acc := by
  cases d with
  | zero => omega
  | succ d =>
    simp [generateCombinations]

theorem generateUniquePrefixesLoop_nil (n : Nat) :
    ∀ (fuel len : Nat) (acc : List Str), 1 ≤ len →
      generateUniquePrefixesLoop [] n fuel len acc = acc := by
  intro fuel
  induction fuel with
  | zero => intro len acc _; rfl
  | succ fuel ih =>
    intro len acc hlen
    by_cases h : n ≤ acc.length
    · simp [generateUniquePrefixesLoop, h]
    · simp only [generateUniquePrefixesLoop, if_neg h]
      rw [generateCombinations_nil n len [] acc hlen]
      exact ih (len + 1) acc (by omega)

/-! ## Claims -/

/-- C1: the claim asserts the no-prefix invariant for `generateUniquePrefixes`
for every n ≥ 1 and alphabet, in particular when n exceeds the alphabet size.
The generalized generator violates it there: over the alphabet "ab" with n = 3
it returns ["a", "b", "aa"], in which label "a" is a proper prefix of the
distinct label "aa" — the length-2 pass re-explores the subtree below the
already-emitted label "a". -/
theorem C1_generator_emits_nested_labels :
    generateUniquePrefixes ['a', 'b'] 3 = Except.ok [['a'], ['b'], ['a', 'a']]
    ∧ List.isPrefixOf ['a'] ['a', 'a'] = true
    ∧ (['a'] : Str) ≠ ['a', 'a'] := by
  refine ⟨rfl, by decide, by decide⟩

/-- C2: for every non-empty alphabet of distinct characters and every n ≥ 1,
`generateUniquePrefixes` succeeds and returns exactly n pairwise-distinct
non-empty labels written over that alphabet, with no upper bound on n and no
dependence of the count on the alphabet's length. -/
theorem C2_generator_count_distinct (letters : Str) (n : Int)
    (hne : letters ≠ []) (hnd : letters.Nodup) (hn : 1 ≤ n) :
    ∃ labels, generateUniquePrefixes letters n = Except.ok labels
      ∧ labels.length = n.toNat
      ∧ labels.Nodup
      ∧ ∀ lab ∈ labels, lab ≠ [] ∧ ∀ c ∈ lab, c ∈ letters :=
  generateUniquePrefixes_ok_spec letters n hne hnd hn

/-- C2 witness: the two-letter alphabet "ab" with n = 3 (n exceeding the
alphabet size). -/
theorem C2_witness :
    (['a', 'b'] : Str) ≠ [] ∧ (['a', 'b'] : Str).Nodup ∧ (1 : Int) ≤ 3
    ∧ ∃ labels, generateUniquePrefixes ['a', 'b'] 3 = Except.ok labels
        ∧ labels.length = (3 : Int).toNat
        ∧ labels.Nodup
        ∧ ∀ lab ∈ labels, lab ≠ [] ∧ ∀ c ∈ lab, c ∈ (['a', 'b'] : Str) :=
  ⟨by decide, by decide, by omega,
    C2_generator_count_distinct ['a', 'b'] 3 (by decide) (by decide) (by omega)⟩

/-- C4: with n = 0 candidates the generator error "n must be a positive
integer." is surfaced to the caller and no markers are created — but
`showHints` has already set `hintMode := true` and never rolls it back, so the
aborted start leaves the session marked active and a later start request is a
complete no-op instead of working. -/
theorem C4_failed_start_leaves_hintMode :
    showHints true ⟨DEFAULT_SETTINGS.hintChars, false, [], [], [], false⟩ []
      = (⟨DEFAULT_SETTINGS.hintChars, true, [], [], [], false⟩,
          Except.error "n must be a positive integer.")
    ∧ showHints true ⟨DEFAULT_SETTINGS.hintChars, true, [], [], [], false⟩
        [⟨"BUTTON", false, "ok"⟩]
      = (⟨DEFAULT_SETTINGS.hintChars, true, [], [], [], false⟩, Except.ok ()) := by
  exact ⟨rfl, rfl⟩

/-- C8: a start request while a session is already Collecting is a complete
no-op: the state is unchanged, no error is raised, no labels are generated and
no markers are created. -/
theorem C8_second_start_noop (containerPresent : Bool) (s : PluginState)
    (candidates : List Elem) (h : s.hintMode = true) :
    showHints containerPresent s candidates = (s, Except.ok ()) := by
  simp [showHints, h]

/-- C8 witness: a second start while Collecting leaves the concrete state
untouched. -/
theorem C8_witness :
    (⟨['a'], true, [(['a'], ⟨"A", false, "x"⟩)], [⟨[], ['a']⟩], [], true⟩
        : PluginState).hintMode = true
    ∧ showHints true
        ⟨['a'], true, [(['a'], ⟨"A", false, "x"⟩)], [⟨[], ['a']⟩], [], true⟩
        [⟨"A", false, "x"⟩]
      = (⟨['a'], true, [(['a'], ⟨"A", false, "x"⟩)], [⟨[], ['a']⟩], [], true⟩,
          Except.ok ()) :=
  ⟨rfl, C8_second_start_noop true
    ⟨['a'], true, [(['a'], ⟨"A", false, "x"⟩)], [⟨[], ['a']⟩], [], true⟩
    [⟨"A", false, "x"⟩] rfl⟩

/-- C9: keystroke matching is case-insensitive — two keys with the same
lowercasing produce identical step results (state, marker updates, activation
and dispatch snapshot) in both the part_000 and the main.ts handler. -/
theorem C9_case_insensitive (dt : Bool) (s : PluginState) (k1 k2 : Str)
    (h : lowerStr k1 = lowerStr k2) :
    keydownHandler dt s k1 = keydownHandler dt s k2
    ∧ keydownHandlerMain dt s k1 = keydownHandlerMain dt s k2 := by
  constructor
  · unfold keydownHandler
    rw [h]
  · unfold keydownHandlerMain
    rw [h]

/-- C9 witness: uppercase A and lowercase a give identical steps on a concrete
session. -/
theorem C9_witness :
    lowerStr ['A'] = lowerStr ['a']
    ∧ keydownHandler false
        ⟨['a', 'b'], true, [(['a'], ⟨"A", false, "x"⟩)], [⟨[], ['a']⟩], [], true⟩ ['A']
      = keydownHandler false
        ⟨['a', 'b'], true, [(['a'], ⟨"A", false, "x"⟩)], [⟨[], ['a']⟩], [], true⟩ ['a']
    ∧ keydownHandlerMain false
        ⟨['a', 'b'], true, [(['a'], ⟨"A", false, "x"⟩)], [⟨[], ['a']⟩], [], true⟩ ['A']
      = keydownHandlerMain false
        ⟨['a', 'b'], true, [(['a'], ⟨"A", false, "x"⟩)], [⟨[], ['a']⟩], [], true⟩ ['a'] :=
  ⟨by decide,
    (C9_case_insensitive false
      ⟨['a', 'b'], true, [(['a'], ⟨"A", false, "x"⟩)], [⟨[], ['a']⟩], [], true⟩
      ['A'] ['a'] (by decide)).1,
    (C9_case_insensitive false
      ⟨['a', 'b'], true, [(['a'], ⟨"A", false, "x"⟩)], [⟨[], ['a']⟩], [], true⟩
      ['A'] ['a'] (by decide)).2⟩

/-- C10: while Collecting, any non-Escape key has its entire lowercased name
appended to `currentInput` in one step (visible in the `currentInput` field of
the result, `s.currentInput ++ lowerStr key`, even for multi-character names
such as "shift"); if the extended input is a prefix of no live label, the
session immediately terminates as a no-match: all markers removed, the label
assignment cleared, hint mode left, the listener detached, and no activation. -/
theorem C10_whole_key_no_match (dt : Bool) (s : PluginState) (key : Str)
    (h1 : s.hintMode = true) (h2 : lowerStr key ≠ "escape".toList)
    (h3 : ∀ p ∈ s.hintElements,
        List.isPrefixOf (s.currentInput ++ lowerStr key) p.1 = false) :
    keydownHandler dt s key
      = ⟨⟨s.hintChars, false, [], [], s.currentInput ++ lowerStr key, false⟩,
          none, none⟩ := by
  have hf : s.hintElements.filter (fun p =>
      List.isPrefixOf (s.currentInput ++ lowerStr key) p.1) = [] :=
    List.filter_eq_nil_iff.mpr (fun p hp => by simp [h3 p hp])
  exact keydownHandler_noMatch dt s key h1 h2 (by rw [hf]; rfl)

/-- C10 witness: pressing Shift with live labels "a" and "b" appends "shift"
whole and ends the session with no activation. -/
theorem C10_witness :
    lowerStr "Shift".toList ≠ "escape".toList
    ∧ keydownHandler false
        ⟨['a', 'b'], true,
          [(['a'], ⟨"A", false, "x"⟩), (['b'], ⟨"BUTTON", false, "y"⟩)],
          [⟨[], ['a']⟩, ⟨[], ['b']⟩], [], true⟩ "Shift".toList
      = ⟨⟨['a', 'b'], false, [], [], ([] : Str) ++ lowerStr "Shift".toList, false⟩,
          none, none⟩ :=
  ⟨by decide,
    C10_whole_key_no_match false
      ⟨['a', 'b'], true,
        [(['a'], ⟨"A", false, "x"⟩), (['b'], ⟨"BUTTON", false, "y"⟩)],
        [⟨[], ['a']⟩, ⟨[], ['b']⟩], [], true⟩
      "Shift".toList rfl (by decide) (by decide)⟩

/-- C3 counterexample: the claim requires the activation dispatch to run only
after `currentInput` has been reset, but at the moment `dispatchElementAction`
is entered the closure variable `currentInput` still holds the full matched
label ("a" here, not the empty string) — only `hintMode`, the markers and the
label assignment have been reset. -/
theorem C3_counterexample :
    ((keydownHandler false
        ⟨['a', 'b'], true, [(['a'], ⟨"A", false, "x"⟩)], [⟨[], ['a']⟩], [], true⟩
        ['a']).activation).isSome = true
    ∧ (keydownHandler false
        ⟨['a', 'b'], true, [(['a'], ⟨"A", false, "x"⟩)], [⟨[], ['a']⟩], [], true⟩
        ['a']).stateAtDispatch
      = some ⟨['a', 'b'], false, [], [], ['a'], true⟩
    ∧ (['a'] : Str) ≠ [] := by
  refine ⟨by decide, by decide, by decide⟩

/-- C3 (amended): the activation dispatch is invoked at most once per session
(over any keystroke trace), only after every marker has been removed and
`hintMode` and the label assignment have been reset (`currentInput`, however,
still holds the matched label at dispatch time), never on the Escape path and
never without an exact label match (hence never on the no-match path); marker
removal and the `hintMode`/assignment reset precede the dispatch and hence
survive a throwing dispatch, which skips only the listener deregistration. -/
theorem C3_amended_dispatch_discipline (dt : Bool) (s : PluginState) (key : Str)
    (ks : List Str) :
    ((runKeys dt s ks).2).length ≤ 1
    ∧ (s.hintMode = false → keydownHandler dt s key = ⟨s, none, none⟩)
    ∧ (∀ sd, (keydownHandler dt s key).stateAtDispatch = some sd →
        sd.hintMode = false ∧ sd.markers = [] ∧ sd.hintElements = []
        ∧ sd.currentInput = s.currentInput ++ lowerStr key)
    ∧ ((keydownHandler dt s key).activation.isSome
        = (keydownHandler dt s key).stateAtDispatch.isSome)
    ∧ (lowerStr key = "escape".toList → (keydownHandler dt s key).activation = none)
    ∧ ((∀ p ∈ s.hintElements, p.1 ≠ s.currentInput ++ lowerStr key) →
        (keydownHandler dt s key).activation = none)
    ∧ ((keydownHandler dt s key).activation.isSome = true →
        (keydownHandler dt s key).state.hintMode = false
        ∧ (keydownHandler dt s key).state.markers = []
        ∧ (keydownHandler dt s key).state.hintElements = []
        ∧ (dt = true →
            (keydownHandler dt s key).state.listenerAttached = s.listenerAttached)) := by
  refine ⟨runKeys_activations_le_one dt ks s,
    keydownHandler_not_hintMode dt s key,
    ?_,
    keydownHandler_activation_isSome_eq dt s key,
    keydownHandler_escape_activation dt s key,
    keydownHandler_no_exact_match_activation dt s key,
    keydownHandler_activation_state dt s key⟩
  intro sd hsd
  rw [keydownHandler_stateAtDispatch_eq dt s key sd hsd]
  exact ⟨rfl, rfl, rfl, rfl⟩

/-- C3 witness: concrete instances of every clause of the amended claim. -/
theorem C3_witness :
    ((runKeys false
        ⟨['a', 'b'], true, [(['a'], ⟨"A", false, "x"⟩)], [⟨[], ['a']⟩], [], true⟩
        [['a']]).2).length ≤ 1
    ∧ keydownHandler false ⟨['a', 'b'], false, [], [], [], false⟩ ['b']
      = ⟨⟨['a', 'b'], false, [], [], [], false⟩, none, none⟩
    ∧ ((⟨['a', 'b'], false, [], [], ['a'], true⟩ : PluginState).hintMode = false
        ∧ (⟨['a', 'b'], false, [], [], ['a'], true⟩ : PluginState).markers = []
        ∧ (⟨['a', 'b'], false, [], [], ['a'], true⟩ : PluginState).hintElements = []
        ∧ (⟨['a', 'b'], false, [], [], ['a'], true⟩ : PluginState).currentInput
            = ([] : Str) ++ lowerStr ['a'])
    ∧ (keydownHandler false
        ⟨['a', 'b'], true, [(['a'], ⟨"A", false, "x"⟩)], [⟨[], ['a']⟩], [], true⟩
        "Escape".toList).activation = none
    ∧ (keydownHandler false
        ⟨['a', 'b'], true, [(['a'], ⟨"A", false, "x"⟩)], [⟨[], ['a']⟩], [], true⟩
        ['z']).activation = none :=
  ⟨(C3_amended_dispatch_discipline false
      ⟨['a', 'b'], true, [(['a'], ⟨"A", false, "x"⟩)], [⟨[], ['a']⟩], [], true⟩
      ['a'] [['a']]).1,
    (C3_amended_dispatch_discipline false
      ⟨['a', 'b'], false, [], [], [], false⟩ ['b'] []).2.1 rfl,
    (C3_amended_dispatch_discipline false
      ⟨['a', 'b'], true, [(['a'], ⟨"A", false, "x"⟩)], [⟨[], ['a']⟩], [], true⟩
      ['a'] []).2.2.1 ⟨['a', 'b'], false, [], [], ['a'], true⟩ (by decide),
    (C3_amended_dispatch_discipline false
      ⟨['a', 'b'], true, [(['a'], ⟨"A", false, "x"⟩)], [⟨[], ['a']⟩], [], true⟩
      "Escape".toList []).2.2.2.2.1 (by decide),
    (C3_amended_dispatch_discipline false
      ⟨['a', 'b'], true, [(['a'], ⟨"A", false, "x"⟩)], [⟨[], ['a']⟩], [], true⟩
      ['z'] []).2.2.2.2.2.1 (by decide)⟩

/-- C7 counterexample: activation is not an exclusive three-way choice — for an
external link (an `A` element outside an internal-link parent) the code calls
`window.open` **and then falls through** to the generic `element.click()`, two
actions in one activation; and for an internal link with no active file it
performs no action at all. -/
theorem C7_counterexample :
    dispatchElementAction (fun s => s) none ⟨"A", false, "http://example.com"⟩
      = [DispatchAction.windowOpen "http://example.com" "_blank", DispatchAction.click]
    ∧ (dispatchElementAction (fun s => s) none ⟨"A", false, "http://example.com"⟩).length = 2
    ∧ dispatchElementAction (fun s => s) none ⟨"A", true, "Note"⟩ = [] := by
  refine ⟨rfl, rfl, rfl⟩

/-- C7 (amended): activation dispatch on the resolved element performs: for an
internal navigational link with an active file, exactly the workspace open by
decoded link text relative to that file; for an internal link without an active
file, nothing; for any other `A` element, the external open on its visible text
followed by the generic click (two actions); otherwise exactly the generic
click. -/
theorem C7_amended_dispatch_cases (decodeURI : String → String)
    (activeFile : Option String) (e : Elem) :
    (e.tag = "A" → e.parentHasInternalLink = true → ∀ path, activeFile = some path →
        dispatchElementAction decodeURI activeFile e
          = [DispatchAction.openLinkText (decodeURI e.innerText) path false true])
    ∧ (e.tag = "A" → e.parentHasInternalLink = true → activeFile = none →
        dispatchElementAction decodeURI activeFile e = [])
    ∧ (e.tag = "A" → e.parentHasInternalLink = false →
        dispatchElementAction decodeURI activeFile e
          = [DispatchAction.windowOpen e.innerText "_blank", DispatchAction.click])
    ∧ (e.tag ≠ "A" →
        dispatchElementAction decodeURI activeFile e = [DispatchAction.click]) := by
  refine ⟨?_, ?_, ?_, ?_⟩
  · intro ht hp path haf
    unfold dispatchElementAction
    rw [if_pos ⟨ht, hp⟩, haf]
  · intro ht hp haf
    unfold dispatchElementAction
    rw [if_pos ⟨ht, hp⟩, haf]
  · intro ht hp
    unfold dispatchElementAction
    rw [if_neg (fun hc => by rw [hp] at hc; exact Bool.noConfusion hc.2), if_pos ht]
  · intro ht
    unfold dispatchElementAction
    rw [if_neg (fun hc => ht hc.1), if_neg ht]

/-- C7 witness: a concrete internal link with an active file and a concrete
button. -/
theorem C7_witness :
    dispatchElementAction (fun s => s) (some "cur.md") ⟨"A", true, "Note"⟩
      = [DispatchAction.openLinkText "Note" "cur.md" false true]
    ∧ dispatchElementAction (fun s => s) (some "cur.md") ⟨"BUTTON", false, "b"⟩
      = [DispatchAction.click] :=
  ⟨(C7_amended_dispatch_cases (fun s => s) (some "cur.md") ⟨"A", true, "Note"⟩).1
      rfl rfl "cur.md" rfl,
    (C7_amended_dispatch_cases (fun s => s) (some "cur.md") ⟨"BUTTON", false, "b"⟩).2.2.2
      (by decide)⟩

/-- C5 counterexample: in the main.ts variant of the handler, a keystroke that
leaves a partial match restyles the surviving markers but does **not** remove
the marker of an eliminated candidate: after typing "a" against labels
"aa"/"ab"/"ba", the marker of the eliminated label "ba" (whose text does not
start with "a") is still on screen, unchanged. -/
theorem C5_counterexample :
    (keydownHandlerMain false
        ⟨['a', 'b'], true,
          [(['a', 'a'], ⟨"A", false, "u"⟩), (['a', 'b'], ⟨"A", false, "v"⟩),
            (['b', 'a'], ⟨"A", false, "w"⟩)],
          [⟨[], ['a', 'a']⟩, ⟨[], ['a', 'b']⟩, ⟨[], ['b', 'a']⟩], [], true⟩
        ['a']).state.markers
      = [⟨['a'], ['a']⟩, ⟨['a'], ['b']⟩, ⟨[], ['b', 'a']⟩]
    ∧ (⟨[], ['b', 'a']⟩ : Marker) ∈ (keydownHandlerMain false
        ⟨['a', 'b'], true,
          [(['a', 'a'], ⟨"A", false, "u"⟩), (['a', 'b'], ⟨"A", false, "v"⟩),
            (['b', 'a'], ⟨"A", false, "w"⟩)],
          [⟨[], ['a', 'a']⟩, ⟨[], ['a', 'b']⟩, ⟨[], ['b', 'a']⟩], [], true⟩
        ['a']).state.markers
    ∧ List.isPrefixOf (['a'] : Str) (([] : Str) ++ ['b', 'a']) = false := by
  refine ⟨by decide, by decide, by decide⟩

/-- C5 (amended): on a keystroke yielding a partial (neither empty nor exact)
match, the part_000 handler removes every marker whose text does not start with
the accumulated input and restyles every survivor to the matched prefix of
length currentInput followed by the unmatched remainder, so only matching
markers remain; the main.ts handler restyles survivors identically but leaves
the markers of eliminated candidates on screen unchanged. -/
theorem C5_amended_marker_update (dt : Bool) (s : PluginState) (key : Str)
    (h1 : s.hintMode = true) (h2 : lowerStr key ≠ "escape".toList)
    (h3 : (s.hintElements.filter (fun p =>
        List.isPrefixOf (s.currentInput ++ lowerStr key) p.1)).isEmpty = false)
    (h4 : (s.hintElements.filter (fun p =>
        List.isPrefixOf (s.currentInput ++ lowerStr key) p.1)).find?
        (fun p => p.1 == s.currentInput ++ lowerStr key) = none) :
    (keydownHandler dt s key).state.markers
      = (s.markers.filter (fun m =>
          List.isPrefixOf (s.currentInput ++ lowerStr key) (m.matched ++ m.rest))).map
          (fun m => ⟨s.currentInput ++ lowerStr key,
            (m.matched ++ m.rest).drop (s.currentInput ++ lowerStr key).length⟩)
    ∧ (∀ m ∈ (keydownHandler dt s key).state.markers,
        m.matched = s.currentInput ++ lowerStr key
        ∧ List.isPrefixOf (s.currentInput ++ lowerStr key) (m.matched ++ m.rest) = true)
    ∧ (keydownHandlerMain dt s key).state.markers
      = s.markers.map (fun m =>
          if List.isPrefixOf (s.currentInput ++ lowerStr key) (m.matched ++ m.rest) then
            (⟨s.currentInput ++ lowerStr key,
              (m.matched ++ m.rest).drop (s.currentInput ++ lowerStr key).length⟩ : Marker)
          else m)
    ∧ (∀ m ∈ s.markers,
        List.isPrefixOf (s.currentInput ++ lowerStr key) (m.matched ++ m.rest) = false →
        m ∈ (keydownHandlerMain dt s key).state.markers) := by
  have hmain := keydownHandlerMain_ambiguous dt s key h1 h2 h3 h4
  have hpart := keydownHandler_ambiguous dt s key h1 h2 h3 h4
  refine ⟨?_, ?_, ?_, ?_⟩
  · rw [hpart]
    exact filterMap_ite_eq_filter_map _ _ s.markers
  · intro m hm
    rw [hpart] at hm
    rw [show ((⟨⟨s.hintChars, true, s.hintElements,
        s.markers.filterMap (fun m =>
          if List.isPrefixOf (s.currentInput ++ lowerStr key) (m.matched ++ m.rest) then
            some ⟨s.currentInput ++ lowerStr key,
              (m.matched ++ m.rest).drop (s.currentInput ++ lowerStr key).length⟩
          else none),
        s.currentInput ++ lowerStr key, s.listenerAttached⟩, none, none⟩
          : StepResult).state.markers)
      = s.markers.filterMap (fun m =>
          if List.isPrefixOf (s.currentInput ++ lowerStr key) (m.matched ++ m.rest) then
            some ⟨s.currentInput ++ lowerStr key,
              (m.matched ++ m.rest).drop (s.currentInput ++ lowerStr key).length⟩
          else none) from rfl,
      filterMap_ite_eq_filter_map _ _ s.markers] at hm
    obtain ⟨m0, hm0, rfl⟩ := List.mem_map.mp hm
    exact ⟨rfl, isPrefixOf_self_append _ _⟩
  · rw [hmain]
  · intro m hm hfalse
    rw [hmain]
    have : (if List.isPrefixOf (s.currentInput ++ lowerStr key) (m.matched ++ m.rest) then
        (⟨s.currentInput ++ lowerStr key,
          (m.matched ++ m.rest).drop (s.currentInput ++ lowerStr key).length⟩ : Marker)
      else m) = m := by
      rw [hfalse]
      rfl
    exact this ▸ List.mem_map_of_mem _ hm

/-- C5 witness: typing "a" against labels "aa"/"ab"/"ba": the part_000 handler
keeps (restyled) only the two matching markers, the main.ts handler keeps all
three. -/
theorem C5_witness :
    (keydownHandler false
        ⟨['a', 'b'], true,
          [(['a', 'a'], ⟨"A", false, "u"⟩), (['a', 'b'], ⟨"A", false, "v"⟩),
            (['b', 'a'], ⟨"A", false, "w"⟩)],
          [⟨[], ['a', 'a']⟩, ⟨[], ['a', 'b']⟩, ⟨[], ['b', 'a']⟩], [], true⟩
        ['a']).state.markers
      = (([⟨[], ['a', 'a']⟩, ⟨[], ['a', 'b']⟩, ⟨[], ['b', 'a']⟩] : List Marker).filter
          (fun m => List.isPrefixOf (([] : Str) ++ lowerStr ['a']) (m.matched ++ m.rest))).map
          (fun m => ⟨([] : Str) ++ lowerStr ['a'],
            (m.matched ++ m.rest).drop (([] : Str) ++ lowerStr ['a']).length⟩)
    ∧ (keydownHandlerMain false
        ⟨['a', 'b'], true,
          [(['a', 'a'], ⟨"A", false, "u"⟩), (['a', 'b'], ⟨"A", false, "v"⟩),
            (['b', 'a'], ⟨"A", false, "w"⟩)],
          [⟨[], ['a', 'a']⟩, ⟨[], ['a', 'b']⟩, ⟨[], ['b', 'a']⟩], [], true⟩
        ['a']).state.markers
      = ([⟨[], ['a', 'a']⟩, ⟨[], ['a', 'b']⟩, ⟨[], ['b', 'a']⟩] : List Marker).map
          (fun m =>
            if List.isPrefixOf (([] : Str) ++ lowerStr ['a']) (m.matched ++ m.rest) then
              (⟨([] : Str) ++ lowerStr ['a'],
                (m.matched ++ m.rest).drop (([] : Str) ++ lowerStr ['a']).length⟩ : Marker)
            else m) :=
  ⟨(C5_amended_marker_update false
      ⟨['a', 'b'], true,
        [(['a', 'a'], ⟨"A", false, "u"⟩), (['a', 'b'], ⟨"A", false, "v"⟩),
          (['b', 'a'], ⟨"A", false, "w"⟩)],
        [⟨[], ['a', 'a']⟩, ⟨[], ['a', 'b']⟩, ⟨[], ['b', 'a']⟩], [], true⟩
      ['a'] rfl (by decide) (by decide) (by decide)).1,
    (C5_amended_marker_update false
      ⟨['a', 'b'], true,
        [(['a', 'a'], ⟨"A", false, "u"⟩), (['a', 'b'], ⟨"A", false, "v"⟩),
          (['b', 'a'], ⟨"A", false, "w"⟩)],
        [⟨[], ['a', 'a']⟩, ⟨[], ['a', 'b']⟩, ⟨[], ['b', 'a']⟩], [], true⟩
      ['a'] rfl (by decide) (by decide) (by decide)).2.2.1⟩

/-- C6 counterexample: an explicitly empty `hintChars` is **not** replaced by
the default alphabet — `Object.assign` copies the present (empty) property —
and with the empty alphabet the generalized generation loop makes no progress
at all: even 100 iterations produce no label for n = 1 (the JS `while` loop
never terminates). -/
theorem C6_counterexample :
    loadSettings (some ⟨some []⟩) = ⟨[]⟩
    ∧ loadSettings (some ⟨some []⟩) ≠ DEFAULT_SETTINGS
    ∧ generateUniquePrefixes [] 1 = Except.ok []
    ∧ generateUniquePrefixesLoop [] 1 100 1 [] = [] := by
  refine ⟨rfl, by decide, rfl, by decide⟩

/-- C6 (amended): a missing config blob, or one without the `hintChars`
property, falls back to the default 26-letter alphabet, and label generation
then still succeeds with n distinct valid labels for every n ≥ 1; but a config
carrying an explicitly empty `hintChars` string is kept as-is, and with an
empty alphabet the generation loop returns its accumulator unchanged at every
fuel, i.e. the source's `while` loop never reaches n labels. -/
theorem C6_amended_fallback (data : Option LoadedData) (n : Int)
    (hmiss : data = none ∨ data = some ⟨none⟩) (hn : 1 ≤ n) :
    loadSettings data = DEFAULT_SETTINGS
    ∧ (∃ labels, generateUniquePrefixes (loadSettings data).hintChars n = Except.ok labels
        ∧ labels.length = n.toNat
        ∧ labels.Nodup
        ∧ ∀ lab ∈ labels, lab ≠ [] ∧ ∀ c ∈ lab, c ∈ DEFAULT_SETTINGS.hintChars)
    ∧ (∀ fuel len acc, 1 ≤ len →
        generateUniquePrefixesLoop [] n.toNat fuel len acc = acc) := by
  have hload : loadSettings data = DEFAULT_SETTINGS := by
    rcases hmiss with rfl | rfl <;> rfl
  refine ⟨hload, ?_, fun fuel len acc hlen =>
    generateUniquePrefixesLoop_nil n.toNat fuel len acc hlen⟩
  rw [hload]
  exact generateUniquePrefixes_ok_spec DEFAULT_SETTINGS.hintChars n
    (by decide) (by decide) hn

/-- C6 witness: a missing blob with n = 1. -/
theorem C6_witness :
    loadSettings none = DEFAULT_SETTINGS
    ∧ (∃ labels, generateUniquePrefixes (loadSettings none).hintChars 1 = Except.ok labels
        ∧ labels.length = (1 : Int).toNat
        ∧ labels.Nodup
        ∧ ∀ lab ∈ labels, lab ≠ [] ∧ ∀ c ∈ lab, c ∈ DEFAULT_SETTINGS.hintChars) :=
  ⟨(C6_amended_fallback none 1 (Or.inl rfl) (by omega)).1,
    (C6_amended_fallback none 1 (Or.inl rfl) (by omega)).2.1⟩
